import Mathlib

/-!
# Verification of the scraper's quota ledger, task orchestrator and frontend

The repository is a content-scraper application: a backend exposing a quota
ledger, a download task orchestrator and an upload orchestrator, plus a React
frontend.  Only the frontend sources are present in the repository snapshot;
the backend components are embedded here from the specification (each such
definition carries a doc comment starting `Modelled from the spec:`).  The
frontend definitions are translated directly from the TypeScript sources.
-/

namespace Backend

/-- Modelled from the spec: the two independently tracked quota kinds
(§2, GLOSSARY). The backend quota module is not under the source tree. -/
inductive QuotaKind where
  | download
  | upload
deriving DecidableEq, Repr

/-- Modelled from the spec: the error taxonomy of §7 (the backend error
types are not under the source tree). `QuotaExceeded` carries the
remaining-quota value. -/
inductive ScraperError where
  | ValidationError
  | QuotaExceeded (remaining : Nat)
  | NotFound
  | NetworkError
  | IOError
  | InvalidState
deriving DecidableEq, Repr

/-- Modelled from the spec: one per-day usage record of the quota ledger
(§3 QuotaRecord), holding `bytesUsed` for each of the two kinds. -/
structure QuotaRecord where
  date : Nat
  downloadUsed : Nat
  uploadUsed : Nat
deriving DecidableEq, Repr

/-- Modelled from the spec: the bytes used for one kind in a day record. -/
def QuotaRecord.used (r : QuotaRecord) (k : QuotaKind) : Nat :=
  match k with
  | .download => r.downloadUsed
  | .upload => r.uploadUsed

/-- Modelled from the spec: replace the bytes used for one kind. -/
def QuotaRecord.setUsed (r : QuotaRecord) (k : QuotaKind) (n : Nat) : QuotaRecord :=
  match k with
  | .download => { r with downloadUsed := n }
  | .upload => { r with uploadUsed := n }

/-- Modelled from the spec: the quota ledger state (§4.2): its own clock
(a calendar-day number), the configured per-kind daily limits, and the
per-day records, lazily created and never retroactively edited. -/
structure Ledger where
  clock : Nat
  downloadLimit : Option Nat
  uploadLimit : Option Nat
  records : List QuotaRecord
deriving DecidableEq, Repr

/-- Modelled from the spec: the configured limit for a kind (`null` when no
limit is configured). -/
def Ledger.limit (L : Ledger) (k : QuotaKind) : Option Nat :=
  match k with
  | .download => L.downloadLimit
  | .upload => L.uploadLimit

/-- Whether a record for the ledger-clock's current day already exists. -/
def Ledger.hasToday (L : Ledger) : Bool :=
  L.records.any (fun r => r.date == L.clock)

/-- Modelled from the spec: today's QuotaRecord, if already created. -/
def Ledger.findToday (L : Ledger) : Option QuotaRecord :=
  L.records.find? (fun r => r.date == L.clock)

/-- Modelled from the spec: lazily create today's QuotaRecord on first
access after a day rollover (§4.2 reserve, §3 QuotaRecord lifecycles);
past days' records are left untouched. -/
def Ledger.ensureToday (L : Ledger) : Ledger :=
  if L.hasToday then L
  else { L with records := ⟨L.clock, 0, 0⟩ :: L.records }

/-- Modelled from the spec: the bytes used today for a kind (0 before
today's record exists). -/
def Ledger.todayUsed (L : Ledger) (k : QuotaKind) : Nat :=
  match L.findToday with
  | some r => r.used k
  | none => 0

/-- Modelled from the spec: rewrite the record for day `c` (if any) to hold
`n` used bytes for kind `k`, leaving every other day's record unchanged. -/
def updateRecords (c : Nat) (k : QuotaKind) (n : Nat) : List QuotaRecord → List QuotaRecord
  | [] => []
  | r :: t => (if r.date == c then r.setUsed k n else r) :: updateRecords c k n t

/-- Modelled from the spec: overwrite today's used bytes for one kind,
leaving every other day's record unchanged. -/
def Ledger.updateToday (L : Ledger) (k : QuotaKind) (n : Nat) : Ledger :=
  { L with records := updateRecords L.clock k n L.records }

/-- Modelled from the spec: the ephemeral reservation token (§3), tracking
the kind and reserved amount; `resolved` records that the token has been
spent by exactly one `commit`/`release` (the at-most-once guard of §4.2). -/
structure Reservation where
  kind : QuotaKind
  amountBytes : Nat
  taskId : Option Nat
  resolved : Bool
deriving DecidableEq, Repr

/-- Modelled from the spec: `reserve(kind, amountBytes)` (§4.2).  Determines
today's record (creating it lazily), always grants when no limit is
configured, otherwise grants iff `bytesUsed + amount ≤ limit`; a grant
provisionally adds the amount to `bytesUsed`; a refusal leaves usage
unchanged and carries `remaining = limit - bytesUsed`. -/
def Ledger.reserve (L : Ledger) (k : QuotaKind) (amount : Nat) :
    Ledger × Except ScraperError Reservation :=
  let L1 := L.ensureToday
  match L1.limit k with
  | none => (L1.updateToday k (L1.todayUsed k + amount), .ok ⟨k, amount, none, false⟩)
  | some lim =>
      if L1.todayUsed k + amount ≤ lim then
        (L1.updateToday k (L1.todayUsed k + amount), .ok ⟨k, amount, none, false⟩)
      else
        (L1, .error (.QuotaExceeded (lim - L1.todayUsed k)))

/-- Modelled from the spec: `commit(reservation, actualBytes)` (§4.2).
Adjusts `bytesUsed` by `actualBytes − reservedAmount` (never below zero);
a second commit of the same reservation fails `InvalidState` and leaves
the ledger untouched. -/
def Ledger.commit (L : Ledger) (res : Reservation) (actualBytes : Nat) :
    Ledger × Reservation × Except ScraperError Unit :=
  if res.resolved then (L, res, .error .InvalidState)
  else
    let L1 := L.ensureToday
    (L1.updateToday res.kind (L1.todayUsed res.kind + actualBytes - res.amountBytes),
     { res with resolved := true }, .ok ())

/-- Modelled from the spec: `release(reservation)` (§4.2), subtracting the
reserved amount back out; resolves the reservation. -/
def Ledger.release (L : Ledger) (res : Reservation) :
    Ledger × Reservation × Except ScraperError Unit :=
  if res.resolved then (L, res, .error .InvalidState)
  else
    let L1 := L.ensureToday
    (L1.updateToday res.kind (L1.todayUsed res.kind - res.amountBytes),
     { res with resolved := true }, .ok ())

/-- Modelled from the spec: the `currentUsage` snapshot (§4.2). -/
structure Usage where
  used : Nat
  limit : Option Nat
  remaining : Option Nat
deriving DecidableEq, Repr

/-- Modelled from the spec: `currentUsage(kind)` (§4.2): a read-only
snapshot for the day; determining today's record creates it lazily. -/
def Ledger.currentUsage (L : Ledger) (k : QuotaKind) : Ledger × Usage :=
  let L1 := L.ensureToday
  (L1, ⟨L1.todayUsed k, L1.limit k, (L1.limit k).map (fun lim => lim - L1.todayUsed k)⟩)

/-! ## Basic ledger lemmas -/

theorem QuotaRecord.date_setUsed (r : QuotaRecord) (k : QuotaKind) (n : Nat) :
    (r.setUsed k n).date = r.date := by
  cases k <;> rfl

theorem QuotaRecord.used_setUsed_same (r : QuotaRecord) (k : QuotaKind) (n : Nat) :
    (r.setUsed k n).used k = n := by
  cases k <;> rfl

theorem Ledger.clock_ensureToday (L : Ledger) : L.ensureToday.clock = L.clock := by
  unfold Ledger.ensureToday
  split <;> rfl

theorem Ledger.limit_ensureToday (L : Ledger) (k : QuotaKind) :
    L.ensureToday.limit k = L.limit k := by
  unfold Ledger.ensureToday
  split
  · rfl
  · cases k <;> rfl

theorem Ledger.clock_updateToday (L : Ledger) (k : QuotaKind) (n : Nat) :
    (L.updateToday k n).clock = L.clock := rfl

theorem Ledger.limit_updateToday (L : Ledger) (k k' : QuotaKind) (n : Nat) :
    (L.updateToday k n).limit k' = L.limit k' := by
  cases k' <;> rfl

theorem Ledger.hasToday_ensureToday (L : Ledger) : L.ensureToday.hasToday = true := by
  unfold Ledger.ensureToday
  by_cases h : L.hasToday
  · simp [h]
  · simp only [h, if_false]
    simp [Ledger.hasToday]

theorem Ledger.todayUsed_ensureToday (L : Ledger) (k : QuotaKind) :
    L.ensureToday.todayUsed k = L.todayUsed k := by
  unfold Ledger.ensureToday
  by_cases h : L.hasToday
  · simp [h]
  · have hfind : L.findToday = none := by
      unfold Ledger.findToday
      rw [List.find?_eq_none]
      intro r hr
      by_contra hc
      exact h (List.any_eq_true.mpr ⟨r, hr, by simpa using hc⟩)
    simp only [h, if_false]
    show (match List.find? (fun r => r.date == L.clock)
            (⟨L.clock, 0, 0⟩ :: L.records) with
          | some r => r.used k
          | none => 0) = L.todayUsed k
    rw [List.find?_cons_of_pos _ (by simp)]
    unfold Ledger.todayUsed
    rw [hfind]
    cases k <;> rfl

theorem find_update_list (c : Nat) (k : QuotaKind) (n : Nat)
    (l : List QuotaRecord) :
    (updateRecords c k n l).find? (fun r => r.date == c)
      = (l.find? (fun r => r.date == c)).map (fun r => r.setUsed k n) := by
  induction l with
  | nil => rfl
  | cons r t ih =>
      cases hb : r.date == c <;>
        simp [updateRecords, List.find?_cons, hb, QuotaRecord.date_setUsed, ih]

theorem Ledger.findToday_updateToday (L : Ledger) (k : QuotaKind) (n : Nat) :
    (L.updateToday k n).findToday = L.findToday.map (fun r => r.setUsed k n) :=
  find_update_list L.clock k n L.records

theorem Ledger.findToday_isSome_of_hasToday (L : Ledger) (h : L.hasToday = true) :
    ∃ r, L.findToday = some r := by
  have h3 : (L.records.find? (fun r => r.date == L.clock)).isSome := by
    rw [List.find?_isSome]
    obtain ⟨x, hx, hpx⟩ := List.any_eq_true.mp h
    exact ⟨x, hx, hpx⟩
  unfold Ledger.findToday
  cases hf : L.records.find? (fun r => r.date == L.clock) with
  | none => rw [hf] at h3; simp at h3
  | some r => exact ⟨r, rfl⟩

theorem Ledger.todayUsed_updateToday_same (L : Ledger) (k : QuotaKind) (n : Nat)
    (h : L.hasToday = true) :
    (L.updateToday k n).todayUsed k = n := by
  obtain ⟨r, hr⟩ := L.findToday_isSome_of_hasToday h
  unfold Ledger.todayUsed
  rw [Ledger.findToday_updateToday, hr]
  simp [QuotaRecord.used_setUsed_same]

theorem any_update_list (c : Nat) (k : QuotaKind) (n : Nat) (l : List QuotaRecord) :
    (updateRecords c k n l).any (fun r => r.date == c)
      = l.any (fun r => r.date == c) := by
  induction l with
  | nil => rfl
  | cons r t ih =>
      cases hb : r.date == c <;>
        simp [updateRecords, hb, QuotaRecord.date_setUsed, ih]

theorem Ledger.hasToday_updateToday (L : Ledger) (k : QuotaKind) (n : Nat) :
    (L.updateToday k n).hasToday = L.hasToday :=
  any_update_list L.clock k n L.records

theorem Ledger.ensureToday_of_hasToday (L : Ledger) (h : L.hasToday = true) :
    L.ensureToday = L := by
  unfold Ledger.ensureToday
  simp [h]

/-! ## Reserve / commit characterization -/

theorem Ledger.reserve_grant_limited (L : Ledger) (k : QuotaKind) (lim a : Nat)
    (hlim : L.limit k = some lim) (hfit : L.todayUsed k + a ≤ lim) :
    L.reserve k a =
      (L.ensureToday.updateToday k (L.todayUsed k + a), .ok ⟨k, a, none, false⟩) := by
  simp only [Ledger.reserve, Ledger.limit_ensureToday, Ledger.todayUsed_ensureToday, hlim]
  rw [if_pos hfit]

theorem Ledger.reserve_refuse (L : Ledger) (k : QuotaKind) (lim a : Nat)
    (hlim : L.limit k = some lim) (hover : lim < L.todayUsed k + a) :
    L.reserve k a = (L.ensureToday, .error (.QuotaExceeded (lim - L.todayUsed k))) := by
  simp only [Ledger.reserve, Ledger.limit_ensureToday, Ledger.todayUsed_ensureToday, hlim]
  rw [if_neg (by omega)]

theorem Ledger.reserve_unlimited (L : Ledger) (k : QuotaKind) (a : Nat)
    (hlim : L.limit k = none) :
    L.reserve k a =
      (L.ensureToday.updateToday k (L.todayUsed k + a), .ok ⟨k, a, none, false⟩) := by
  simp only [Ledger.reserve, Ledger.limit_ensureToday, Ledger.todayUsed_ensureToday, hlim]

theorem Ledger.reserve_granted_state (L : Ledger) (k : QuotaKind) (a : Nat)
    (L' : Ledger) (r : Reservation) (h : L.reserve k a = (L', .ok r)) :
    r = ⟨k, a, none, false⟩ ∧ L'.todayUsed k = L.todayUsed k + a ∧
    (∀ k', L'.limit k' = L.limit k') ∧ L'.hasToday = true ∧ L'.clock = L.clock := by
  have hgr : L' = L.ensureToday.updateToday k (L.todayUsed k + a) ∧ r = ⟨k, a, none, false⟩ := by
    cases hl : L.limit k with
    | none =>
        rw [L.reserve_unlimited k a hl] at h
        exact ⟨(Prod.mk.injEq _ _ _ _ ▸ h).1.symm,
          by cases (Prod.mk.injEq _ _ _ _ ▸ h).2 ; rfl⟩
    | some lim =>
        by_cases hfit : L.todayUsed k + a ≤ lim
        · rw [L.reserve_grant_limited k lim a hl hfit] at h
          exact ⟨(Prod.mk.injEq _ _ _ _ ▸ h).1.symm,
            by cases (Prod.mk.injEq _ _ _ _ ▸ h).2 ; rfl⟩
        · rw [L.reserve_refuse k lim a hl (by omega)] at h
          cases (Prod.mk.injEq _ _ _ _ ▸ h).2
  obtain ⟨hL', hr⟩ := hgr
  subst hL'
  refine ⟨hr, ?_, ?_, ?_, ?_⟩
  · rw [Ledger.todayUsed_updateToday_same _ _ _ L.hasToday_ensureToday]
  · intro k'
    rw [Ledger.limit_updateToday, Ledger.limit_ensureToday]
  · rw [Ledger.hasToday_updateToday, Ledger.hasToday_ensureToday]
  · rw [Ledger.clock_updateToday, Ledger.clock_ensureToday]

theorem Ledger.commit_unresolved (L : Ledger) (r : Reservation) (act : Nat)
    (h : r.resolved = false) :
    L.commit r act =
      (L.ensureToday.updateToday r.kind (L.todayUsed r.kind + act - r.amountBytes),
       { r with resolved := true }, .ok ()) := by
  simp only [Ledger.commit, h, Bool.false_eq_true, if_false,
    Ledger.todayUsed_ensureToday]

theorem Ledger.commit_resolved (L : Ledger) (r : Reservation) (act : Nat)
    (h : r.resolved = true) :
    L.commit r act = (L, r, .error .InvalidState) := by
  simp [Ledger.commit, h]

theorem Ledger.commit_state (L : Ledger) (r : Reservation) (act : Nat)
    (h : r.resolved = false) :
    ((L.commit r act).1).todayUsed r.kind = L.todayUsed r.kind + act - r.amountBytes ∧
    (∀ k', (L.commit r act).1.limit k' = L.limit k') ∧
    (L.commit r act).1.hasToday = true ∧
    (L.commit r act).1.clock = L.clock ∧
    (L.commit r act).2.1 = { r with resolved := true } ∧
    (L.commit r act).2.2 = .ok () := by
  rw [L.commit_unresolved r act h]
  refine ⟨?_, ?_, ?_, ?_, rfl, rfl⟩
  · exact Ledger.todayUsed_updateToday_same _ _ _ L.hasToday_ensureToday
  · intro k'
    rw [Ledger.limit_updateToday, Ledger.limit_ensureToday]
  · rw [Ledger.hasToday_updateToday, Ledger.hasToday_ensureToday]
  · rw [Ledger.clock_updateToday, Ledger.clock_ensureToday]

theorem Ledger.todayUsed_of_not_hasToday (L : Ledger) (h : L.hasToday = false)
    (k : QuotaKind) : L.todayUsed k = 0 := by
  unfold Ledger.hasToday at h
  have hfind : L.findToday = none := by
    unfold Ledger.findToday
    rw [List.find?_eq_none]
    intro r hr hc
    have hany : L.records.any (fun r => r.date == L.clock) = true :=
      List.any_eq_true.mpr ⟨r, hr, hc⟩
    rw [hany] at h
    cases h
  unfold Ledger.todayUsed
  rw [hfind]

theorem Ledger.currentUsage_fst (L : Ledger) (k : QuotaKind) :
    (L.currentUsage k).1 = L.ensureToday := rfl

theorem Ledger.currentUsage_used (L : Ledger) (k : QuotaKind) :
    ((L.currentUsage k).2).used = L.todayUsed k :=
  L.todayUsed_ensureToday k

/-! ## Linearized concurrent reservations -/

/-- Modelled from the spec: §5 requires `reserve` to run inside the ledger's
single mutual-exclusion region, so any pair of concurrent `reserve` calls is
linearized into one of the two sequential orders.  `reserveSeq2` is one such
order: the first call runs on the ledger, the second on the ledger the first
produced; it returns what each call observed. -/
def reserveSeq2 (L : Ledger) (k : QuotaKind) (a b : Nat) :
    Except ScraperError Reservation × Except ScraperError Reservation :=
  ((L.reserve k a).2, ((L.reserve k a).1.reserve k b).2)

/-- Claim C1: for a kind with a configured limit, two concurrent `reserve`
calls that are each individually within the remaining limit but jointly
exceed it end — in either linearization order — with exactly one call
granted a Reservation and the other refused with `QuotaExceeded`: the
ledger never grants both. -/
theorem reserve_no_double_grant (L : Ledger) (k : QuotaKind) (lim a b : Nat)
    (hlim : L.limit k = some lim)
    (ha : L.todayUsed k + a ≤ lim)
    (hb : L.todayUsed k + b ≤ lim)
    (hab : lim < L.todayUsed k + a + b) :
    reserveSeq2 L k a b =
      (.ok ⟨k, a, none, false⟩,
       .error (.QuotaExceeded (lim - (L.todayUsed k + a)))) ∧
    reserveSeq2 L k b a =
      (.ok ⟨k, b, none, false⟩,
       .error (.QuotaExceeded (lim - (L.todayUsed k + b)))) := by
  constructor
  · unfold reserveSeq2
    rw [L.reserve_grant_limited k lim a hlim ha]
    have h1 : (L.ensureToday.updateToday k (L.todayUsed k + a)).limit k = some lim := by
      rw [Ledger.limit_updateToday, Ledger.limit_ensureToday, hlim]
    have h2 : (L.ensureToday.updateToday k (L.todayUsed k + a)).todayUsed k
        = L.todayUsed k + a :=
      Ledger.todayUsed_updateToday_same _ _ _ L.hasToday_ensureToday
    show ((Except.ok ⟨k, a, none, false⟩ : Except ScraperError Reservation),
          ((L.ensureToday.updateToday k (L.todayUsed k + a)).reserve k b).2) = _
    rw [Ledger.reserve_refuse _ k lim b h1 (by rw [h2]; omega), h2]
  · unfold reserveSeq2
    rw [L.reserve_grant_limited k lim b hlim hb]
    have h1 : (L.ensureToday.updateToday k (L.todayUsed k + b)).limit k = some lim := by
      rw [Ledger.limit_updateToday, Ledger.limit_ensureToday, hlim]
    have h2 : (L.ensureToday.updateToday k (L.todayUsed k + b)).todayUsed k
        = L.todayUsed k + b :=
      Ledger.todayUsed_updateToday_same _ _ _ L.hasToday_ensureToday
    show ((Except.ok ⟨k, b, none, false⟩ : Except ScraperError Reservation),
          ((L.ensureToday.updateToday k (L.todayUsed k + b)).reserve k a).2) = _
    rw [Ledger.reserve_refuse _ k lim a h1 (by rw [h2]; omega), h2]

/-- Witness for C1: limit 100, 90 bytes already used today, concurrent
reserves of 8 and 7; in each order the first is granted and the second is
refused with the remaining quota. -/
theorem reserve_no_double_grant_witness :
    reserveSeq2 ⟨5, some 100, none, [⟨5, 90, 0⟩]⟩ .download 8 7 =
      (.ok ⟨.download, 8, none, false⟩, .error (.QuotaExceeded 2)) ∧
    reserveSeq2 ⟨5, some 100, none, [⟨5, 90, 0⟩]⟩ .download 7 8 =
      (.ok ⟨.download, 7, none, false⟩, .error (.QuotaExceeded 3)) :=
  reserve_no_double_grant ⟨5, some 100, none, [⟨5, 90, 0⟩]⟩ .download 100 8 7
    (by rfl) (by decide) (by decide) (by decide)

/-! ## Exact reserve/commit accounting -/

/-- Modelled from the spec: run a sequence of `reserve`/`commit` pairs
(estimated, actual bytes) on one kind, as the orchestrator does per task;
`none` if any reserve is refused or any commit rejected. -/
def runPairs (k : QuotaKind) : Ledger → List (Nat × Nat) → Option Ledger
  | L, [] => some L
  | L, (est, act) :: rest =>
      match L.reserve k est with
      | (L1, .ok r) =>
          match L1.commit r act with
          | (L2, _, .ok _) => runPairs k L2 rest
          | (_, _, .error _) => none
      | (_, .error _) => none

theorem runPairs_sum (k : QuotaKind) (ps : List (Nat × Nat)) :
    ∀ (L L' : Ledger), runPairs k L ps = some L' →
      L'.todayUsed k = L.todayUsed k + (ps.map Prod.snd).sum := by
  induction ps with
  | nil =>
      intro L L' h
      cases h
      simp
  | cons p rest ih =>
      intro L L' h
      obtain ⟨est, act⟩ := p
      unfold runPairs at h
      split at h
      · rename_i L1 r heq
        obtain ⟨hr, hused, -, -, -⟩ := L.reserve_granted_state k est L1 r heq
        have hres0 : r.resolved = false := by rw [hr]
        have hkind : r.kind = k := by rw [hr]
        have hamt : r.amountBytes = est := by rw [hr]
        have hcomval := (L1.commit_state r act hres0).1
        split at h
        · rename_i L2 r2 u heq2
          rw [heq2] at hcomval
          have hL2 : L2.todayUsed r.kind
              = L1.todayUsed r.kind + act - r.amountBytes := hcomval
          rw [hkind, hamt] at hL2
          have hsum := ih L2 L' h
          rw [hsum, hL2, hused]
          simp only [List.map_cons, List.sum_cons]
          omega
        · exact Option.noConfusion h
      · exact Option.noConfusion h

/-- Claim C5: for any sequence of successful reserve/commit pairs on one
kind within one day, starting from zero usage, the final `bytesUsed`
equals the sum of the committed `actualBytes`, independent of the
estimates reserved. -/
theorem reserve_commit_accounting (L : Ledger) (k : QuotaKind)
    (ps : List (Nat × Nat)) (L' : Ledger)
    (h0 : L.todayUsed k = 0) (h : runPairs k L ps = some L') :
    L'.todayUsed k = (ps.map Prod.snd).sum := by
  rw [runPairs_sum k ps L L' h, h0, Nat.zero_add]

/-- Witness for C5: two pairs with estimates 5 and 10 but actuals 3 and 12;
the final usage is 3 + 12 = 15. -/
theorem reserve_commit_accounting_witness :
    (⟨1, some 1000, none, [⟨1, 15, 0⟩]⟩ : Ledger).todayUsed .download = 15 :=
  reserve_commit_accounting ⟨1, some 1000, none, []⟩ .download [(5, 3), (10, 12)]
    ⟨1, some 1000, none, [⟨1, 15, 0⟩]⟩ (by rfl) (by rfl)

/-- Claim C6: a reservation is resolved at most once: the first commit of an
unresolved reservation succeeds, and a second commit attempt on the
resulting reservation fails `InvalidState` and leaves the ledger — hence
`bytesUsed` — exactly as the first commit left it. -/
theorem commit_at_most_once (L : Ledger) (r : Reservation) (a1 a2 : Nat)
    (hres : r.resolved = false) :
    (L.commit r a1).2.2 = .ok () ∧
    ((L.commit r a1).1.commit ((L.commit r a1).2.1) a2).2.2 = .error .InvalidState ∧
    ((L.commit r a1).1.commit ((L.commit r a1).2.1) a2).1 = (L.commit r a1).1 := by
  rw [L.commit_unresolved r a1 hres]
  exact ⟨rfl, rfl, rfl⟩

/-- Witness for C6: committing a 10-byte reservation twice on a concrete
ledger; the second commit fails `InvalidState` and changes nothing. -/
theorem commit_at_most_once_witness :
    ((⟨3, some 100, none, [⟨3, 20, 0⟩]⟩ : Ledger).commit
        ⟨.download, 10, none, false⟩ 8).2.2 = .ok () ∧
    (((⟨3, some 100, none, [⟨3, 20, 0⟩]⟩ : Ledger).commit
        ⟨.download, 10, none, false⟩ 8).1.commit
      (((⟨3, some 100, none, [⟨3, 20, 0⟩]⟩ : Ledger).commit
        ⟨.download, 10, none, false⟩ 8).2.1) 8).2.2 = .error .InvalidState ∧
    (((⟨3, some 100, none, [⟨3, 20, 0⟩]⟩ : Ledger).commit
        ⟨.download, 10, none, false⟩ 8).1.commit
      (((⟨3, some 100, none, [⟨3, 20, 0⟩]⟩ : Ledger).commit
        ⟨.download, 10, none, false⟩ 8).2.1) 8).1 =
      ((⟨3, some 100, none, [⟨3, 20, 0⟩]⟩ : Ledger).commit
        ⟨.download, 10, none, false⟩ 8).1 :=
  commit_at_most_once ⟨3, some 100, none, [⟨3, 20, 0⟩]⟩ ⟨.download, 10, none, false⟩
    8 8 rfl

/-- Claim C7: when no record exists yet for the ledger-clock's current day,
the first `currentUsage` query reports `used = 0` for both kinds, creates
the new day's QuotaRecord lazily, and leaves every past day's record
untouched (the old records reappear unchanged behind the new one). -/
theorem currentUsage_new_day (L : Ledger) (hnew : L.hasToday = false) :
    (∀ k, ((L.currentUsage k).2).used = 0) ∧
    (∀ k, ((L.currentUsage k).1).records = ⟨L.clock, 0, 0⟩ :: L.records) := by
  constructor
  · intro k
    rw [Ledger.currentUsage_used]
    exact L.todayUsed_of_not_hasToday hnew k
  · intro k
    rw [Ledger.currentUsage_fst]
    unfold Ledger.ensureToday
    simp [hnew]

/-- Witness for C7: a ledger whose clock rolled to day 6 with only a day-5
record (90 downloaded / 40 uploaded bytes): the first query reports 0 for
both kinds and prepends a fresh day-6 record, keeping the day-5 record. -/
theorem currentUsage_new_day_witness :
    (((⟨6, some 100, some 50, [⟨5, 90, 40⟩]⟩ : Ledger).currentUsage .download).2).used = 0 ∧
    (((⟨6, some 100, some 50, [⟨5, 90, 40⟩]⟩ : Ledger).currentUsage .upload).2).used = 0 ∧
    (((⟨6, some 100, some 50, [⟨5, 90, 40⟩]⟩ : Ledger).currentUsage .download).1).records
      = [⟨6, 0, 0⟩, ⟨5, 90, 40⟩] := by
  have h := currentUsage_new_day ⟨6, some 100, some 50, [⟨5, 90, 40⟩]⟩ (by rfl)
  exact ⟨h.1 .download, h.1 .upload, h.2 .download⟩

/-! ## Task orchestrator -/

/-- Modelled from the spec: the content kinds of §3 (the backend data model
is not under the source tree). -/
inductive ContentKind where
  | video
  | image
  | file
deriving DecidableEq, Repr

/-- Modelled from the spec: a ContentItem as the orchestrator sees it (§3):
immutable, identified by its identifier, carrying an estimated size. -/
structure ContentItem where
  identifier : String
  displayName : String
  kind : ContentKind
  estimatedSizeBytes : Nat
  observedDate : Nat
deriving DecidableEq, Repr

/-- Modelled from the spec: task status, transitioning only forward
`pending → running → {completed, failed}` (§3). -/
inductive TaskStatus where
  | pending
  | running
  | completed
  | failed
deriving DecidableEq, Repr

/-- Modelled from the spec: one per-item outcome entry of
`perItemOutcomes` (§3): success flag, transferred bytes, optional error. -/
structure ItemOutcome where
  succeeded : Bool
  bytesTransferred : Nat
  error : Option ScraperError
deriving DecidableEq, Repr

/-- Modelled from the spec: a Task (§3), owned by the Task Orchestrator;
`perItemOutcomes` maps item identifiers to their outcomes. -/
structure Task where
  id : Nat
  items : List ContentItem
  status : TaskStatus
  completedCount : Nat
  totalCount : Nat
  perItemOutcomes : List (String × ItemOutcome)
deriving DecidableEq, Repr

/-- Whether a list of identifiers contains a duplicate. -/
def hasDuplicate : List String → Bool
  | [] => false
  | x :: xs => xs.contains x || hasDuplicate xs

/-- Modelled from the spec: the total estimated size of a submission,
`Σ estimatedSizeBytes` (§4.1). -/
def estTotal (items : List ContentItem) : Nat :=
  (items.map (·.estimatedSizeBytes)).sum

/-- Modelled from the spec: `submit(items)` (§4.1).  Fails `ValidationError`
on an empty item list or a duplicate identifier; reserves the download
quota for the estimated total, failing `QuotaExceeded` with no task
created when the ledger refuses; otherwise creates the Task (which
transitions to `running` and is returned immediately) together with the
reservation made at submission. -/
def submit (L : Ledger) (id : Nat) (items : List ContentItem) :
    Ledger × Except ScraperError (Task × Reservation) :=
  if items.isEmpty || hasDuplicate (items.map (·.identifier)) then
    (L, .error .ValidationError)
  else
    match L.reserve .download (estTotal items) with
    | (L', .ok r) =>
        (L', .ok (⟨id, items, .running, 0, items.length, []⟩, r))
    | (L', .error e) => (L', .error e)

/-- Modelled from the spec: merging one completed item fetch — success or
exhausted-retries failure — into the task: increments `completedCount`
and records the `perItemOutcomes` entry in one atomic step (§4.1, §5). -/
def recordOutcome (t : Task) (p : ContentItem × ItemOutcome) : Task :=
  { t with completedCount := t.completedCount + 1,
           perItemOutcomes := t.perItemOutcomes ++ [(p.1.identifier, p.2)] }

/-- Modelled from the spec: the whole fetch phase: fold every completed
item fetch, in completion order, into the task. -/
def runTask (t : Task) (results : List (ContentItem × ItemOutcome)) : Task :=
  results.foldl recordOutcome t

/-- Modelled from the spec: the sequence of snapshots the Status Store
publishes while the fetch phase runs — the initial task followed by the
state after each atomically merged item completion; `getStatus` polls
observe these snapshots in publication order (§4.4, §5). -/
def runTrace (t : Task) : List (ContentItem × ItemOutcome) → List Task
  | [] => [t]
  | p :: rest => t :: runTrace (recordOutcome t p) rest

/-- Modelled from the spec: the bytes actually transferred by the succeeded
items only (§4.1 execution). -/
def succeededBytes (outs : List (String × ItemOutcome)) : Nat :=
  ((outs.filter (fun p => p.2.succeeded)).map (fun p => p.2.bytesTransferred)).sum

/-- Modelled from the spec: task finalization (§4.1): once every item has
completed, commit the actual bytes of the succeeded items against the
reservation made at submission; the task becomes `completed`, and only an
orchestration-level fault (the ledger rejecting the commit) makes it
`failed` — individual item failures never do. -/
def finishTask (L : Ledger) (r : Reservation) (t : Task) : Ledger × Task :=
  match L.commit r (succeededBytes t.perItemOutcomes) with
  | (L', _, .ok _) => (L', { t with status := .completed })
  | (L', _, .error _) => (L', { t with status := .failed })

/-- Modelled from the spec: the full pipeline of one task: submit, run every
item fetch to completion, finalize. `results` pairs each item, in
completion order, with its fetch outcome. -/
def submitAndRun (L : Ledger) (id : Nat) (items : List ContentItem)
    (results : List (ContentItem × ItemOutcome)) :
    Ledger × Except ScraperError Task :=
  match submit L id items with
  | (L', .error e) => (L', .error e)
  | (L', .ok (t, r)) =>
      let fin := finishTask L' r (runTask t results)
      (fin.1, .ok fin.2)

theorem runTrace_get (rs : List (ContentItem × ItemOutcome)) :
    ∀ (t : Task) (i : Nat) (h : i < (runTrace t rs).length),
      ((runTrace t rs).get ⟨i, h⟩).completedCount = t.completedCount + i := by
  induction rs with
  | nil =>
      intro t i h
      have hi0 : i = 0 := by
        simp [runTrace] at h
        omega
      subst hi0
      rfl
  | cons p rest ih =>
      intro t i h
      cases i with
      | zero => rfl
      | succ i =>
          have h' : i < (runTrace (recordOutcome t p) rest).length := by
            simpa [runTrace] using h
          have hrec := ih (recordOutcome t p) i h'
          show ((runTrace (recordOutcome t p) rest).get ⟨i, h'⟩).completedCount = _
          rw [hrec]
          show t.completedCount + 1 + i = t.completedCount + (i + 1)
          omega

/-- Claim C2: the `completedCount` values observable by `getStatus` polls on
one task are monotonically non-decreasing: in the sequence of snapshots
published during the task's execution, a later snapshot never carries a
smaller `completedCount` than an earlier one. -/
theorem getStatus_monotone (t : Task) (rs : List (ContentItem × ItemOutcome))
    (i j : Nat) (hi : i < (runTrace t rs).length)
    (hj : j < (runTrace t rs).length) (hij : i ≤ j) :
    ((runTrace t rs).get ⟨i, hi⟩).completedCount ≤
      ((runTrace t rs).get ⟨j, hj⟩).completedCount := by
  rw [runTrace_get rs t i hi, runTrace_get rs t j hj]
  omega

/-- A concrete two-item task used by the monotonicity witness. -/
def witnessTask : Task :=
  ⟨1, [⟨"u1", "a", .video, 5, 0⟩, ⟨"u2", "b", .image, 7, 0⟩], .running, 0, 2, []⟩

/-- Concrete per-item results, one success and one exhausted-retries
failure, used by the monotonicity witness. -/
def witnessResults : List (ContentItem × ItemOutcome) :=
  [(⟨"u1", "a", .video, 5, 0⟩, ⟨true, 5, none⟩),
   (⟨"u2", "b", .image, 7, 0⟩, ⟨false, 0, some .NetworkError⟩)]

/-- Witness for C2: on a concrete two-item task the first snapshot's
`completedCount` is no larger than the last one's. -/
theorem getStatus_monotone_witness :
    ((runTrace witnessTask witnessResults).get ⟨0, by decide⟩).completedCount ≤
      ((runTrace witnessTask witnessResults).get ⟨2, by decide⟩).completedCount :=
  getStatus_monotone witnessTask witnessResults 0 2 (by decide) (by decide)
    (by decide)

/-- Claim C3: a submission whose estimated total exceeds the remaining
daily download quota fails `QuotaExceeded` carrying the remaining value,
no task is created (the result carries only the error, and `submit`
returns before any fetch work is modelled at all), and `currentUsage`
afterwards reports the same `used` value as before. -/
theorem submit_quota_refusal (L : Ledger) (id : Nat) (items : List ContentItem)
    (lim : Nat)
    (hne : items.isEmpty = false)
    (hnd : hasDuplicate (items.map (·.identifier)) = false)
    (hlim : L.limit .download = some lim)
    (hover : lim < L.todayUsed .download + estTotal items) :
    (submit L id items).2
        = .error (.QuotaExceeded (lim - L.todayUsed .download)) ∧
    ((submit L id items).1.currentUsage .download).2.used
        = (L.currentUsage .download).2.used := by
  have hsub : submit L id items
      = (L.ensureToday, .error (.QuotaExceeded (lim - L.todayUsed .download))) := by
    unfold submit
    rw [hne, hnd]
    rw [L.reserve_refuse .download lim (estTotal items) hlim hover]
    rfl
  rw [hsub]
  refine ⟨rfl, ?_⟩
  rw [Ledger.currentUsage_used, Ledger.currentUsage_used, Ledger.todayUsed_ensureToday]

/-- The three 5-byte items of the quota-refusal witness. -/
def itemsC3 : List ContentItem :=
  [⟨"u1", "f1", .file, 5, 0⟩, ⟨"u2", "f2", .file, 5, 0⟩, ⟨"u3", "f3", .file, 5, 0⟩]

/-- Witness for C3 (the spec's own scenario): limit 100, 90 already used,
three 5-byte items; `submit` fails `QuotaExceeded` with remaining 10 and
`used` still reads 90 afterwards. -/
theorem submit_quota_refusal_witness :
    (submit ⟨7, some 100, none, [⟨7, 90, 0⟩]⟩ 1 itemsC3).2
        = .error (.QuotaExceeded 10) ∧
    ((submit ⟨7, some 100, none, [⟨7, 90, 0⟩]⟩ 1 itemsC3).1.currentUsage
        .download).2.used
      = ((⟨7, some 100, none, [⟨7, 90, 0⟩]⟩ : Ledger).currentUsage .download).2.used :=
  submit_quota_refusal ⟨7, some 100, none, [⟨7, 90, 0⟩]⟩ 1 itemsC3 100
    (by rfl) (by rfl) (by rfl) (by decide)

theorem runTask_outcomes (rs : List (ContentItem × ItemOutcome)) :
    ∀ (t : Task),
      (runTask t rs).perItemOutcomes
        = t.perItemOutcomes ++ rs.map (fun p => (p.1.identifier, p.2)) := by
  induction rs with
  | nil =>
      intro t
      simp [runTask]
  | cons p rest ih =>
      intro t
      unfold runTask at ih ⊢
      simp only [List.foldl_cons]
      rw [ih (recordOutcome t p)]
      show (t.perItemOutcomes ++ [(p.1.identifier, p.2)]) ++ _ = _
      simp

theorem finishTask_unresolved (L : Ledger) (r : Reservation) (t : Task)
    (h : r.resolved = false) :
    finishTask L r t =
      (L.ensureToday.updateToday r.kind
        (L.todayUsed r.kind + succeededBytes t.perItemOutcomes - r.amountBytes),
       { t with status := .completed }) := by
  unfold finishTask
  rw [L.commit_unresolved r _ h]

/-- Claim C4: a task in which some items fail after exhausting retries and
others succeed still ends `completed` (never `failed`), its
`perItemOutcomes` records every item's success or failure, and the bytes
committed against the download quota are the sum of `bytesTransferred`
over the succeeded items only. -/
theorem mixed_outcome_completes (L : Ledger) (id : Nat)
    (items : List ContentItem) (results : List (ContentItem × ItemOutcome))
    (lim : Nat)
    (hne : items.isEmpty = false)
    (hnd : hasDuplicate (items.map (·.identifier)) = false)
    (hlim : L.limit .download = some lim)
    (hfit : L.todayUsed .download + estTotal items ≤ lim)
    (hperm : List.Perm (results.map Prod.fst) items)
    (hsucc : ∃ p ∈ results, p.2.succeeded = true)
    (hfail : ∃ p ∈ results, p.2.succeeded = false) :
    ∃ t', (submitAndRun L id items results).2 = .ok t' ∧
      t'.status = .completed ∧
      t'.perItemOutcomes = results.map (fun p => (p.1.identifier, p.2)) ∧
      (submitAndRun L id items results).1.todayUsed .download
        = L.todayUsed .download
          + succeededBytes (results.map (fun p => (p.1.identifier, p.2))) := by
  have hsub : submit L id items
      = (L.ensureToday.updateToday .download (L.todayUsed .download + estTotal items),
         .ok (⟨id, items, .running, 0, items.length, []⟩,
              ⟨.download, estTotal items, none, false⟩)) := by
    unfold submit
    rw [hne, hnd]
    rw [L.reserve_grant_limited .download lim (estTotal items) hlim hfit]
    rfl
  set L1e := L.ensureToday.updateToday .download
      (L.todayUsed .download + estTotal items) with hL1e
  have hL1used : L1e.todayUsed .download = L.todayUsed .download + estTotal items :=
    Ledger.todayUsed_updateToday_same _ _ _ L.hasToday_ensureToday
  have hrunOuts : (runTask ⟨id, items, .running, 0, items.length, []⟩ results).perItemOutcomes
      = results.map (fun p => (p.1.identifier, p.2)) := by
    rw [runTask_outcomes results]
    simp
  have hall : submitAndRun L id items results
      = (L1e.ensureToday.updateToday .download
           (L1e.todayUsed .download
             + succeededBytes (results.map (fun p => (p.1.identifier, p.2)))
             - estTotal items),
         .ok { runTask ⟨id, items, .running, 0, items.length, []⟩ results with
                status := .completed }) := by
    unfold submitAndRun
    simp only [hsub]
    rw [finishTask_unresolved _ _ _ rfl]
    rw [hrunOuts]
  refine ⟨{ runTask ⟨id, items, .running, 0, items.length, []⟩ results with
            status := .completed }, ?_, rfl, ?_, ?_⟩
  · rw [hall]
  · exact hrunOuts
  · rw [hall]
    show (L1e.ensureToday.updateToday .download _).todayUsed .download = _
    rw [Ledger.todayUsed_updateToday_same _ _ _ L1e.hasToday_ensureToday, hL1used]
    omega

/-- The three 10-byte items of the partial-failure witness. -/
def itemsC4 : List ContentItem :=
  [⟨"v1", "a", .video, 10, 0⟩, ⟨"v2", "b", .video, 10, 0⟩, ⟨"v3", "c", .video, 10, 0⟩]

/-- Concrete completion-order results for the partial-failure witness: two
successes (9 and 11 actual bytes) and one exhausted-retries failure. -/
def resultsC4 : List (ContentItem × ItemOutcome) :=
  [(⟨"v1", "a", .video, 10, 0⟩, ⟨true, 9, none⟩),
   (⟨"v3", "c", .video, 10, 0⟩, ⟨false, 0, some .NetworkError⟩),
   (⟨"v2", "b", .video, 10, 0⟩, ⟨true, 11, none⟩)]

/-- Witness for C4: a 3-item task with one exhausted-retries failure ends
`completed`, records all three outcomes, and commits 9 + 11 = 20 bytes. -/
theorem mixed_outcome_completes_witness :
    ∃ t', (submitAndRun ⟨2, some 100, none, []⟩ 9 itemsC4 resultsC4).2 = .ok t' ∧
      t'.status = .completed ∧
      t'.perItemOutcomes = resultsC4.map (fun p => (p.1.identifier, p.2)) ∧
      (submitAndRun ⟨2, some 100, none, []⟩ 9 itemsC4 resultsC4).1.todayUsed .download
        = 0 + succeededBytes (resultsC4.map (fun p => (p.1.identifier, p.2))) :=
  mixed_outcome_completes ⟨2, some 100, none, []⟩ 9 itemsC4 resultsC4 100
    (by rfl) (by rfl) (by rfl) (by decide) (by decide) (by decide) (by decide)

/-! ## Upload orchestrator -/

/-- Modelled from the spec: the external services the Upload Orchestrator
consults per item (§4.3, §6): whether the previously-fetched item exists,
whether its kind is allowed, and the result of copying it into the
destination (`some bytesWritten`, or `none` for an IO failure). -/
structure UploadEnv where
  itemExists : ContentItem → Bool
  allowedKind : ContentItem → Bool
  copyResult : ContentItem → Option Nat

/-- Modelled from the spec: upload one item (§4.3): verify it exists and is
of an allowed kind, reserve upload quota for its size, copy it, and commit
the reservation with the actual bytes written; on a copy failure release
the reservation and report the per-item error. -/
def uploadOne (L : Ledger) (env : UploadEnv) (it : ContentItem) :
    Ledger × Except ScraperError Nat :=
  if env.itemExists it then
    if env.allowedKind it then
      match L.reserve .upload it.estimatedSizeBytes with
      | (L1, .ok r) =>
          match env.copyResult it with
          | some bytes => ((L1.commit r bytes).1, .ok bytes)
          | none => ((L1.release r).1, .error .IOError)
      | (L1, .error e) => (L1, .error e)
    else (L, .error .ValidationError)
  else (L, .error .NotFound)

/-- Modelled from the spec: the aggregate result of the upload path (§4.3):
a success count, a fail count, and the sequence of per-item errors, each
pairing a failed item's identifier with the reason. -/
structure UploadOutcome where
  successCount : Nat
  failCount : Nat
  errors : List (String × ScraperError)
deriving DecidableEq, Repr

/-- Modelled from the spec: process the batch item by item, accumulating
the aggregate outcome; an item's failure is recorded and processing
continues with the next item. -/
def uploadGo (env : UploadEnv) : Ledger → UploadOutcome → List ContentItem →
    Ledger × UploadOutcome
  | L, out, [] => (L, out)
  | L, out, it :: rest =>
      match uploadOne L env it with
      | (L', .ok _) =>
          uploadGo env L' { out with successCount := out.successCount + 1 } rest
      | (L', .error e) =>
          uploadGo env L'
            { out with failCount := out.failCount + 1,
                       errors := out.errors ++ [(it.identifier, e)] } rest

/-- Modelled from the spec: `uploadSelected` (§4.3): uploads every selected
item and returns the aggregate `{successCount, failCount, errors}`;
single-item failures never abort the batch. -/
def uploadSelected (L : Ledger) (env : UploadEnv) (items : List ContentItem) :
    Ledger × UploadOutcome :=
  uploadGo env L ⟨0, 0, []⟩ items

theorem uploadGo_cons_ok (env : UploadEnv) (L : Ledger) (out : UploadOutcome)
    (it : ContentItem) (rest : List ContentItem) (L' : Ledger) (n : Nat)
    (h : uploadOne L env it = (L', .ok n)) :
    uploadGo env L out (it :: rest)
      = uploadGo env L' { out with successCount := out.successCount + 1 } rest := by
  simp only [uploadGo, h]

theorem uploadGo_cons_error (env : UploadEnv) (L : Ledger) (out : UploadOutcome)
    (it : ContentItem) (rest : List ContentItem) (L' : Ledger) (e : ScraperError)
    (h : uploadOne L env it = (L', .error e)) :
    uploadGo env L out (it :: rest)
      = uploadGo env L'
          { out with failCount := out.failCount + 1,
                     errors := out.errors ++ [(it.identifier, e)] } rest := by
  simp only [uploadGo, h]

theorem uploadGo_counts (env : UploadEnv) (items : List ContentItem) :
    ∀ (L : Ledger) (out : UploadOutcome),
      (uploadGo env L out items).2.successCount + (uploadGo env L out items).2.failCount
          = out.successCount + out.failCount + items.length ∧
      (uploadGo env L out items).2.errors.length + out.failCount
          = out.errors.length + (uploadGo env L out items).2.failCount ∧
      ∀ e ∈ (uploadGo env L out items).2.errors,
        e.1 ∈ out.errors.map Prod.fst ∨ e.1 ∈ items.map (·.identifier) := by
  induction items with
  | nil =>
      intro L out
      refine ⟨rfl, rfl, ?_⟩
      intro e he
      exact Or.inl (List.mem_map_of_mem Prod.fst he)
  | cons it rest ih =>
      intro L out
      cases huo : uploadOne L env it with
      | mk L' res =>
          cases res with
          | ok n =>
              rw [uploadGo_cons_ok env L out it rest L' n huo]
              obtain ⟨ih1, ih2, ih3⟩ :=
                ih L' { out with successCount := out.successCount + 1 }
              refine ⟨?_, ?_, ?_⟩
              · rw [ih1]
                dsimp only
                simp only [List.length_cons]
                omega
              · rw [ih2]
              · intro e he
                rcases ih3 e he with h1 | h2
                · exact Or.inl h1
                · exact Or.inr (List.mem_cons_of_mem _ h2)
          | error er =>
              rw [uploadGo_cons_error env L out it rest L' er huo]
              obtain ⟨ih1, ih2, ih3⟩ :=
                ih L' { out with failCount := out.failCount + 1,
                                 errors := out.errors ++ [(it.identifier, er)] }
              refine ⟨?_, ?_, ?_⟩
              · rw [ih1]
                dsimp only
                simp only [List.length_cons]
                omega
              · have h2 := ih2
                dsimp only at h2
                simp only [List.length_append, List.length_cons, List.length_nil] at h2
                omega
              · intro e he
                rcases ih3 e he with h1 | h2
                · rw [List.map_append, List.mem_append] at h1
                  rcases h1 with h1a | h1b
                  · exact Or.inl h1a
                  · simp only [List.map_cons, List.map_nil, List.mem_singleton] at h1b
                    exact Or.inr (by rw [h1b]; exact List.mem_cons_self _ _)
                · exact Or.inr (List.mem_cons_of_mem _ h2)

/-- Claim C9: for every upload batch, the upload operation returns an
aggregate outcome whose success and fail counts add up to the number of
items and whose per-item error sequence carries exactly one
`(item, reason)` entry per failed item, each naming one of the batch's
items; by construction `uploadSelected` always returns this aggregate, so
a single item's failure never fails the batch wholesale. -/
theorem upload_aggregate (L : Ledger) (env : UploadEnv) (items : List ContentItem) :
    (uploadSelected L env items).2.successCount
        + (uploadSelected L env items).2.failCount = items.length ∧
    (uploadSelected L env items).2.errors.length
        = (uploadSelected L env items).2.failCount ∧
    ∀ e ∈ (uploadSelected L env items).2.errors,
      e.1 ∈ items.map (·.identifier) := by
  obtain ⟨h1, h2, h3⟩ := uploadGo_counts env items L ⟨0, 0, []⟩
  refine ⟨by simpa using h1, by simpa using h2, ?_⟩
  intro e he
  rcases h3 e he with h | h
  · simp at h
  · exact h

end Backend

namespace Frontend

/-- The `ContentItem` interface declared in
`src/frontend/src/types/index.ts` (lines 1–8):
`{title, url, thumbnail?, type, size, date}` — it declares no `path`
field. -/
structure ContentItem where
  title : String
  url : String
  thumbnail : Option String
  type : String
  size : Nat
  date : String
deriving DecidableEq, Repr

/-- The `UploadResult` interface declared in `types/index.ts`
(lines 48–53). -/
structure UploadResult where
  success : Bool
  uploaded : Nat
  failed : Nat
  message : String
deriving DecidableEq, Repr

/-- JS property access `x.path` on a `ContentItem` value: the interface
declares no `path` field, so the access evaluates to `undefined`,
modelled as `none`. -/
def ContentItem.path (_ : ContentItem) : Option String := none

namespace ContentPanel

/-- `startDownload` of `ContentPanel.tsx` (lines 112–134), projected to its
API effect: the body of the `downloadContent` request it makes, or `none`
when it returns early because the selection is empty (line 113). -/
def startDownload (selectedItems : List ContentItem) :
    Option (List ContentItem) :=
  if selectedItems.isEmpty then none
  else some selectedItems

end ContentPanel

namespace DownloadManager

/-- The membership test `handleItemSelect` uses
(`DownloadManager.tsx` line 52): an item is selected iff some selected
item has the same `url`. -/
def isSelected (selectedItems : List ContentItem) (item : ContentItem) : Bool :=
  selectedItems.any (fun selected => selected.url == item.url)

/-- `handleItemSelect` of `DownloadManager.tsx` (lines 51–59): toggles the
item in the selection, comparing items by `url`. -/
def handleItemSelect (selectedItems : List ContentItem) (item : ContentItem) :
    List ContentItem :=
  if isSelected selectedItems item then
    selectedItems.filter (fun selected => selected.url != item.url)
  else
    selectedItems ++ [item]

/-- The checkbox `checked` predicate of `DownloadManager.tsx` line 179:
`selectedItems.some(selected => selected.path === item.path)`. -/
def checkboxChecked (selectedItems : List ContentItem) (item : ContentItem) :
    Bool :=
  selectedItems.any (fun selected => selected.path == item.path)

/-- The per-file payload `handleUpload` sends for each selected item:
`{path: item.url, type: item.type, size: item.size}`
(`DownloadManager.tsx` lines 78–82). -/
structure UploadFileRef where
  path : String
  type : String
  size : Nat
deriving DecidableEq, Repr

/-- `handleUpload` of `DownloadManager.tsx` (lines 71–95), projected to its
API effect: the `files` body of the `uploadContent` request it makes, or
`none` when it returns early because the selection is empty (line 72). -/
def handleUpload (selectedItems : List ContentItem) :
    Option (List UploadFileRef) :=
  if selectedItems.isEmpty then none
  else some (selectedItems.map (fun it => ⟨it.url, it.type, it.size⟩))

end DownloadManager

/-- A concrete downloaded item used in the checkbox analysis. -/
def itemA : ContentItem := ⟨"A", "http-a", none, "video", 1, "d"⟩

/-- A second concrete item, with a different `url`, not in the selection. -/
def itemB : ContentItem := ⟨"B", "http-b", none, "video", 2, "d"⟩

end Frontend

/-- Claim C8: a submission whose item sequence is empty or has a duplicate
identifier fails `ValidationError` before any task exists and leaves the
ledger untouched; and in the frontend, `startDownload` and `handleUpload`
return without making any API call when the selection is empty. -/
theorem submit_validation_and_frontend_guards :
    (∀ (L : Backend.Ledger) (id : Nat) (items : List Backend.ContentItem),
        (items.isEmpty || Backend.hasDuplicate (items.map (·.identifier))) = true →
        Backend.submit L id items = (L, .error .ValidationError)) ∧
    Frontend.ContentPanel.startDownload [] = none ∧
    Frontend.DownloadManager.handleUpload [] = none := by
  refine ⟨?_, rfl, rfl⟩
  intro L id items h
  unfold Backend.submit
  rw [h]
  rfl

/-- Witness for C8: the empty submission is rejected `ValidationError` on a
concrete ledger, and both frontend handlers make no API call on an empty
selection. -/
theorem submit_validation_and_frontend_guards_witness :
    Backend.submit ⟨4, some 100, none, []⟩ 1 ([] : List Backend.ContentItem)
        = (⟨4, some 100, none, []⟩, .error .ValidationError) ∧
    Frontend.ContentPanel.startDownload [] = none ∧
    Frontend.DownloadManager.handleUpload [] = none :=
  ⟨submit_validation_and_frontend_guards.1 ⟨4, some 100, none, []⟩ 1 [] (by decide),
   submit_validation_and_frontend_guards.2.1,
   submit_validation_and_frontend_guards.2.2⟩

/-- Claim C10: the DownloadManager checkbox predicate compares the
non-existent `path` fields of the item and the selected items (both
`undefined` in JS, `none` here), so it evaluates to true exactly when the
selection is non-empty; hence it does not reflect the per-`url` selection
maintained by `handleItemSelect`: a selection holding only `itemA` marks
the unselected `itemB` as checked. -/
theorem checkbox_checked_ignores_selection :
    (∀ (sel : List Frontend.ContentItem) (item : Frontend.ContentItem),
        Frontend.DownloadManager.checkboxChecked sel item = !sel.isEmpty) ∧
    (Frontend.DownloadManager.checkboxChecked [Frontend.itemA] Frontend.itemB = true ∧
     Frontend.DownloadManager.isSelected [Frontend.itemA] Frontend.itemB = false) := by
  refine ⟨?_, rfl, by decide⟩
  intro sel item
  cases sel with
  | nil => rfl
  | cons a t =>
      simp [Frontend.DownloadManager.checkboxChecked, Frontend.ContentItem.path]
